import Mathlib

/-!
Verification of the hero video-carousel sequencer of the MGaming site
(`src/components/Hero.jsx`).  The component keeps four pieces of state —
`currentIndex`, `hasClicked`, `loading`, `loadedVideos` — and exposes the
handlers `handleMiniVdClick` and `handleVideoLoad`, the pure path builder
`getVideoSrc`, and a `useEffect` that clears `loading` when the counter of
loaded videos reaches `totalVideos - 1`.  Everything below is a direct
shallow embedding of those definitions.
-/

/-- Number of hero videos: `const totalVideos = 4` in `Hero.jsx`. -/
def totalVideos : Nat := 4

/-- `getVideoSrc` from `Hero.jsx`: the template literal
`videos/hero-INDEX.mp4` applied to any number, with no range check. -/
def getVideoSrc (index : Int) : String := s!"videos/hero-{index}.mp4"

/-- The updater passed to `setCurrentIndex` inside `handleMiniVdClick`:
`(prevIndex % totalVideos) + 1`, written with the video count as a
parameter so properties quantified over the count can be stated. -/
def advanceIdx (total prevIndex : Nat) : Nat := prevIndex % total + 1

/-- The derived preview index rendered for the mini video:
`(currentIndex % totalVideos) + 1` in the preview `src` attribute. -/
def previewIdx (total currentIndex : Nat) : Nat := currentIndex % total + 1

/-- The index used for the full-screen background video in `Hero.jsx`:
`currentIndex === totalVideos - 1 ? 1 : currentIndex`. -/
def backgroundIdx (currentIndex : Nat) : Nat :=
  if currentIndex = totalVideos - 1 then 1 else currentIndex

/-- `videoSourceForSpec` follows the WORDS of the specification (§4.1), for
comparison with `getVideoSrc` from the source: "total function over
`[1, totalVideos]`, fails with an out-of-range condition otherwise". -/
def videoSourceForSpec (index : Int) : Option String :=
  if 1 ≤ index ∧ index ≤ (totalVideos : Int) then some (getVideoSrc index)
  else none

/-- The React state of the `Hero` component. -/
structure CarouselState where
  currentIndex : Nat
  hasClicked : Bool
  loading : Bool
  loadedVideos : Nat

/-- Initial state of the mounted component: `useState(1)`,
`useState(false)`, `useState(true)`, `useState(0)`. -/
def initState : CarouselState :=
  { currentIndex := 1, hasClicked := false, loading := true,
    loadedVideos := 0 }

/-- `handleMiniVdClick`: `setHasClicked(true)` and
`setCurrentIndex((prevIndex % totalVideos) + 1)`. -/
def handleMiniVdClick (s : CarouselState) : CarouselState :=
  { s with hasClicked := true,
           currentIndex := advanceIdx totalVideos s.currentIndex }

/-- `handleVideoLoad` followed by the loading `useEffect`: the counter is
incremented, and the effect, which runs on the new value of
`loadedVideos`, sets `loading` to `false` exactly when that new value
equals `totalVideos - 1` and does nothing otherwise. -/
def handleVideoLoad (s : CarouselState) : CarouselState :=
  { s with loadedVideos := s.loadedVideos + 1,
           loading := if s.loadedVideos + 1 = totalVideos - 1 then false
                      else s.loading }

/-- The two events the component reacts to: a click on the mini preview
and a `loadeddata` signal from one of the video elements. -/
inductive Op where
  | click
  | videoLoad

/-- Dispatch one event to the component state. -/
def applyOp (s : CarouselState) : Op → CarouselState
  | Op.click => handleMiniVdClick s
  | Op.videoLoad => handleVideoLoad s

/-- Run a whole sequence of events from a state. -/
def run (s : CarouselState) (ops : List Op) : CarouselState :=
  ops.foldl applyOp s

-- ===== helper lemmas =====

/-- Advancing keeps the index inside `[1, total]` whenever `total ≥ 1`. -/
lemma advanceIdx_range (total i : Nat) (h : 1 ≤ total) :
    1 ≤ advanceIdx total i ∧ advanceIdx total i ≤ total := by
  unfold advanceIdx
  constructor
  · omega
  · have := Nat.mod_lt i (show 0 < total by omega)
    omega

/-- Iterating the advance map is addition modulo `total` on the shifted
index: starting from `j + 1` with `j < total`, after `k` clicks the index
is `(j + k) % total + 1`. -/
lemma advanceIdx_iterate (total j k : Nat) (hj : j < total) :
    (advanceIdx total)^[k] (j + 1) = (j + k) % total + 1 := by
  induction k with
  | zero => simp [Nat.mod_eq_of_lt hj]
  | succ k ih =>
      rw [Function.iterate_succ_apply', ih]
      unfold advanceIdx
      have h1 : ((j + k) % total + 1) % total = (j + (k + 1)) % total := by
        rw [Nat.mod_add_mod, Nat.add_assoc]
      rw [h1]

/-- Neither handler ever sets `loading` back to `true`. -/
lemma applyOp_loading_mono (s : CarouselState) (op : Op)
    (h : s.loading = false) : (applyOp s op).loading = false := by
  cases op with
  | click => simpa [applyOp, handleMiniVdClick] using h
  | videoLoad =>
      simp only [applyOp, handleVideoLoad]
      split <;> simp [h]

/-- `loading = false` is preserved by every event sequence. -/
lemma run_loading_mono (ops : List Op) :
    ∀ s : CarouselState, s.loading = false → (run s ops).loading = false := by
  induction ops with
  | nil => intro s h; simpa [run] using h
  | cons op ops ih =>
      intro s h
      have : (run s (op :: ops)) = run (applyOp s op) ops := by
        simp [run, List.foldl_cons]
      rw [this]
      exact ih _ (applyOp_loading_mono s op h)

/-- Neither handler ever sets `hasClicked` back to `false`. -/
lemma applyOp_hasClicked_mono (s : CarouselState) (op : Op)
    (h : s.hasClicked = true) : (applyOp s op).hasClicked = true := by
  cases op with
  | click => simp [applyOp, handleMiniVdClick]
  | videoLoad => simpa [applyOp, handleVideoLoad] using h

/-- `hasClicked = true` is preserved by every event sequence. -/
lemma run_hasClicked_mono (ops : List Op) :
    ∀ s : CarouselState, s.hasClicked = true →
      (run s ops).hasClicked = true := by
  induction ops with
  | nil => intro s h; simpa [run] using h
  | cons op ops ih =>
      intro s h
      have : (run s (op :: ops)) = run (applyOp s op) ops := by
        simp [run, List.foldl_cons]
      rw [this]
      exact ih _ (applyOp_hasClicked_mono s op h)

/-- With at least two videos, the derived preview index never equals an
in-range current index. -/
lemma previewIdx_ne (N i : Nat) (hN : 2 ≤ N) (h1 : 1 ≤ i) (h2 : i ≤ N) :
    previewIdx N i ≠ i := by
  unfold previewIdx
  rcases Nat.lt_or_ge i N with h | h
  · rw [Nat.mod_eq_of_lt h]
    omega
  · have hi : i = N := by omega
    subst hi
    rw [Nat.mod_self]
    omega

-- ===== claim theorems =====

/-- C1, counterexample: the claim places the background special case at
`currentIndex = totalVideos` (= 4), but the code tests
`currentIndex === totalVideos - 1`.  The state with `currentIndex = 4` is
reachable (three clicks from the initial state), and there the rendered
background locator is that of clip 4, not clip 1; the early wrap happens
at index 3 instead. -/
theorem background_wrap_at_totalVideos_false :
    (run initState [Op.click, Op.click, Op.click]).currentIndex =
      totalVideos ∧
    getVideoSrc (backgroundIdx totalVideos) = getVideoSrc 4 ∧
    getVideoSrc 4 ≠ getVideoSrc 1 ∧
    backgroundIdx (totalVideos - 1) = 1 := by
  refine ⟨by decide, by decide, by decide, by decide⟩

/-- C1, amended: for every in-range `currentIndex`, the background locator
equals `getVideoSrc currentIndex` except exactly at
`currentIndex = totalVideos - 1` (clip 3), where it is the locator of
clip 1. -/
theorem background_wrap_amended (i : Nat) (h1 : 1 ≤ i)
    (h2 : i ≤ totalVideos) :
    (i = totalVideos - 1 → getVideoSrc (backgroundIdx i) = getVideoSrc 1) ∧
    (i ≠ totalVideos - 1 → getVideoSrc (backgroundIdx i) = getVideoSrc i) := by
  constructor
  · intro h
    subst h
    rfl
  · intro h
    unfold backgroundIdx
    rw [if_neg h]

/-- C1, witness for the amended theorem at `currentIndex = 4`. -/
theorem background_wrap_amended_witness :
    1 ≤ 4 ∧ 4 ≤ totalVideos ∧
    ((4 = totalVideos - 1 → getVideoSrc (backgroundIdx 4) = getVideoSrc 1) ∧
     (4 ≠ totalVideos - 1 → getVideoSrc (backgroundIdx 4) = getVideoSrc 4)) :=
  ⟨by decide, by decide, background_wrap_amended 4 (by decide) (by decide)⟩

/-- C2: for every `totalVideos ≥ 2` and every index reachable from an
in-range start by any number of advances, the preview index is
`(currentIndex % totalVideos) + 1`, it differs from `currentIndex`, and
advancing from `totalVideos` wraps back to `1`. -/
theorem preview_invariant (N i0 k : Nat) (hN : 2 ≤ N) (h1 : 1 ≤ i0)
    (h2 : i0 ≤ N) :
    previewIdx N ((advanceIdx N)^[k] i0) =
      ((advanceIdx N)^[k] i0) % N + 1 ∧
    previewIdx N ((advanceIdx N)^[k] i0) ≠ (advanceIdx N)^[k] i0 ∧
    advanceIdx N N = 1 := by
  have hrange : 1 ≤ (advanceIdx N)^[k] i0 ∧ (advanceIdx N)^[k] i0 ≤ N := by
    induction k with
    | zero => simpa using ⟨h1, h2⟩
    | succ k ih =>
        rw [Function.iterate_succ_apply']
        exact advanceIdx_range N _ (by omega)
  refine ⟨rfl, ?_, ?_⟩
  · exact previewIdx_ne N _ hN hrange.1 hrange.2
  · unfold advanceIdx
    rw [Nat.mod_self]

/-- C2, witness at `totalVideos = 4`, start `1`, two advances. -/
theorem preview_invariant_witness :
    2 ≤ 4 ∧ 1 ≤ 1 ∧ 1 ≤ 4 ∧
    (previewIdx 4 ((advanceIdx 4)^[2] 1) =
       ((advanceIdx 4)^[2] 1) % 4 + 1 ∧
     previewIdx 4 ((advanceIdx 4)^[2] 1) ≠ (advanceIdx 4)^[2] 1 ∧
     advanceIdx 4 4 = 1) :=
  ⟨by decide, by decide, by decide,
   preview_invariant 4 1 2 (by decide) (by decide) (by decide)⟩

/-- C3: one click sets `hasClicked` and moves `currentIndex` to the old
preview index `(currentIndex % totalVideos) + 1`; the new preview is the
cyclic successor of the new index. -/
theorem advance_postcondition (s : CarouselState)
    (h1 : 1 ≤ s.currentIndex) (h2 : s.currentIndex ≤ totalVideos) :
    (handleMiniVdClick s).hasClicked = true ∧
    (handleMiniVdClick s).currentIndex =
      previewIdx totalVideos s.currentIndex ∧
    (handleMiniVdClick s).currentIndex =
      s.currentIndex % totalVideos + 1 ∧
    previewIdx totalVideos (handleMiniVdClick s).currentIndex =
      (handleMiniVdClick s).currentIndex % totalVideos + 1 :=
  ⟨rfl, rfl, rfl, rfl⟩

/-- C3, witness at the initial state. -/
theorem advance_postcondition_witness :
    1 ≤ initState.currentIndex ∧ initState.currentIndex ≤ totalVideos ∧
    ((handleMiniVdClick initState).hasClicked = true ∧
     (handleMiniVdClick initState).currentIndex =
       previewIdx totalVideos initState.currentIndex ∧
     (handleMiniVdClick initState).currentIndex =
       initState.currentIndex % totalVideos + 1 ∧
     previewIdx totalVideos (handleMiniVdClick initState).currentIndex =
       (handleMiniVdClick initState).currentIndex % totalVideos + 1) :=
  ⟨by decide, by decide,
   advance_postcondition initState (by decide) (by decide)⟩

/-- C4: advancing exactly `totalVideos` times from any in-range start
returns the index to its original value; with four videos the trajectory
from 1 is 1 → 2 → 3 → 4 → 1. -/
theorem advance_cyclic_closure (N i : Nat) (hN : 1 ≤ N) (h1 : 1 ≤ i)
    (h2 : i ≤ N) :
    (advanceIdx N)^[N] i = i ∧
    advanceIdx 4 1 = 2 ∧ advanceIdx 4 2 = 3 ∧ advanceIdx 4 3 = 4 ∧
    advanceIdx 4 4 = 1 := by
  refine ⟨?_, by decide, by decide, by decide, by decide⟩
  obtain ⟨j, rfl⟩ : ∃ j, i = j + 1 := ⟨i - 1, by omega⟩
  rw [advanceIdx_iterate N j N (by omega), Nat.add_mod_right,
      Nat.mod_eq_of_lt (by omega)]

/-- C4, witness at `N = 4`, start `1`. -/
theorem advance_cyclic_closure_witness :
    1 ≤ 4 ∧ 1 ≤ 1 ∧ 1 ≤ 4 ∧
    ((advanceIdx 4)^[4] 1 = 1 ∧
     advanceIdx 4 1 = 2 ∧ advanceIdx 4 2 = 3 ∧ advanceIdx 4 3 = 4 ∧
     advanceIdx 4 4 = 1) :=
  ⟨by decide, by decide, by decide,
   advance_cyclic_closure 4 1 (by decide) (by decide) (by decide)⟩

/-- C5: from the fresh state (`loadedVideos = 0`, `loading = true`),
after `k` load signals the counter is `k` and the loading flag is true
exactly while `k < totalVideos - 1`: three signals clear it, fewer leave
it set, and further signals leave it cleared. -/
theorem loading_threshold (k : Nat) :
    (handleVideoLoad^[k] initState).loadedVideos = k ∧
    (handleVideoLoad^[k] initState).loading =
      decide (k < totalVideos - 1) := by
  induction k with
  | zero => exact ⟨rfl, rfl⟩
  | succ k ih =>
      obtain ⟨hc, hl⟩ := ih
      have step_count :
          ∀ s : CarouselState,
            (handleVideoLoad s).loadedVideos = s.loadedVideos + 1 :=
        fun _ => rfl
      have step_load :
          ∀ s : CarouselState,
            (handleVideoLoad s).loading =
              if s.loadedVideos + 1 = totalVideos - 1 then false
              else s.loading :=
        fun _ => rfl
      constructor
      · rw [Function.iterate_succ_apply', step_count, hc]
      · rw [Function.iterate_succ_apply', step_load, hc, hl]
        by_cases h : k + 1 = totalVideos - 1
        · rw [if_pos h]
          have hlt : ¬ (k + 1 < totalVideos - 1) := by omega
          simp [hlt]
        · rw [if_neg h]
          rw [decide_eq_decide]
          unfold totalVideos at h ⊢
          omega

/-- C6: once the loading flag is off (the counter having reached
`totalVideos - 1`), no further event — click or load signal — ever turns
it back on. -/
theorem loading_latch (s : CarouselState) (ops : List Op)
    (hc : totalVideos - 1 ≤ s.loadedVideos) (hl : s.loading = false) :
    (run s ops).loading = false :=
  run_loading_mono ops s hl

/-- C6, witness: a suppressed state stays suppressed across a click and
two more load signals. -/
theorem loading_latch_witness :
    totalVideos - 1 ≤
      (CarouselState.mk 4 true false 3).loadedVideos ∧
    (run (CarouselState.mk 4 true false 3)
       [Op.click, Op.videoLoad, Op.videoLoad]).loading = false :=
  ⟨by decide,
   loading_latch (CarouselState.mk 4 true false 3)
     [Op.click, Op.videoLoad, Op.videoLoad] (by decide) rfl⟩

/-- C7, counterexample: the claim says `videoSourceFor` fails with an
out-of-range condition outside `[1, totalVideos]`; the source
`getVideoSrc` performs no range check and returns a formatted path even
at `0` and `5`, unlike the spec-worded `videoSourceForSpec`. -/
theorem videoSourceFor_out_of_range_false :
    videoSourceForSpec 0 = none ∧
    getVideoSrc 0 = "videos/hero-0.mp4" ∧
    videoSourceForSpec 5 = none ∧
    getVideoSrc 5 = "videos/hero-5.mp4" := by
  refine ⟨by decide, by decide, by decide, by decide⟩

/-- C7, amended: `getVideoSrc` is a pure function that, on every index in
`[1, totalVideos]`, returns the locator built by string formatting of the
index (where it agrees with the spec-worded function); outside that range
it does not fail and returns the identically formatted string. -/
theorem videoSourceFor_domain (i : Int) (h1 : 1 ≤ i)
    (h2 : i ≤ (totalVideos : Int)) :
    getVideoSrc i = "videos/hero-" ++ (toString i ++ ".mp4") ∧
    videoSourceForSpec i = some (getVideoSrc i) ∧
    getVideoSrc (totalVideos + 1) =
      "videos/hero-" ++ (toString ((totalVideos : Int) + 1) ++ ".mp4") := by
    refine ⟨rfl, ?_, by decide⟩
    unfold videoSourceForSpec
    rw [if_pos ⟨h1, h2⟩]

/-- C7, witness for the amended theorem at index 2. -/
theorem videoSourceFor_domain_witness :
    (1 : Int) ≤ 2 ∧ (2 : Int) ≤ (totalVideos : Int) ∧
    (getVideoSrc 2 = "videos/hero-" ++ (toString (2 : Int) ++ ".mp4") ∧
     videoSourceForSpec 2 = some (getVideoSrc 2) ∧
     getVideoSrc (totalVideos + 1) =
       "videos/hero-" ++ (toString ((totalVideos : Int) + 1) ++ ".mp4")) :=
  ⟨by decide, by decide, videoSourceFor_domain 2 (by decide) (by decide)⟩

/-- C8, counterexample: with `totalVideos = 1` the code's derived preview
index at the only valid current index `1` equals that current index — the
invalid state the claim says is never silently produced. -/
theorem degenerate_carousel_explicit_false :
    previewIdx 1 1 = 1 := by decide

/-- C8, amended: with `totalVideos = 1`, `advance()` does leave
`currentIndex` unchanged at `1` (a no-op carousel), but the configuration
is not rejected and the derived `previewIdx` silently equals
`currentIndex`; in the shipped code `totalVideos` is hard-coded to `4`,
so the degenerate configuration never arises. -/
theorem degenerate_carousel_amended :
    advanceIdx 1 1 = 1 ∧ previewIdx 1 1 = 1 ∧ totalVideos = 4 := by
  refine ⟨by decide, by decide, rfl⟩

/-- C9: `hasClicked` is a one-way latch — after any reachable prefix of
events followed by one click, every further event sequence leaves
`hasClicked` true; nothing in the component ever resets it. -/
theorem hasClicked_latch (pre post : List Op) :
    (run (applyOp (run initState pre) Op.click) post).hasClicked = true :=
  run_hasClicked_mono post _ rfl

/-- C10: `getVideoSrc` is total and deterministic over all integers: it
returns `"videos/hero-" ++ toString index ++ ".mp4"` for every integer,
including `0`, negatives, and indices above `totalVideos`, and equal
indices give equal locators. -/
theorem getVideoSrc_total_deterministic (i j : Int) (h : i = j) :
    getVideoSrc i = "videos/hero-" ++ (toString i ++ ".mp4") ∧
    getVideoSrc i = getVideoSrc j ∧
    getVideoSrc 0 = "videos/hero-0.mp4" ∧
    getVideoSrc (-3) = "videos/hero--3.mp4" ∧
    getVideoSrc ((totalVideos : Int) + 1) = "videos/hero-5.mp4" := by
  subst h
  refine ⟨rfl, rfl, by decide, by decide, by decide⟩

/-- C10, witness at `i = j = 0`. -/
theorem getVideoSrc_total_deterministic_witness :
    (0 : Int) = 0 ∧
    (getVideoSrc 0 = "videos/hero-" ++ (toString (0 : Int) ++ ".mp4") ∧
     getVideoSrc 0 = getVideoSrc 0 ∧
     getVideoSrc 0 = "videos/hero-0.mp4" ∧
     getVideoSrc (-3) = "videos/hero--3.mp4" ∧
     getVideoSrc ((totalVideos : Int) + 1) = "videos/hero-5.mp4") :=
  ⟨rfl, getVideoSrc_total_deterministic 0 0 rfl⟩
